import Mathlib

/-!
# DeDeadZone: the ADC interrupt handler of `src/main.c`

A shallow embedding of `ISR(ADC_vect)` (lines 48-139 of `src/main.c`) as a pure
step function on an explicit record of the firmware's global variables, and the
properties of the calibration state machine and of the dead-zone correction
proved about it.

Machine integers are mathematical integers with explicit reduction:
`int16_t` values are kept in `-32768..32767` by `toInt16`, `uint16_t` values in
`0..65535` by `toUInt16`, `uint8_t` values in `0..255` by `toUInt8`. On the AVR
target `int` is 16 bits wide, so every arithmetic result assigned back to the
`int16_t` local `value` is reduced by `toInt16`.
-/

namespace DeDeadZone

/-! ## Machine integers -/

/-- Reduction of an integer to the `int16_t` range (two's complement). -/
def toInt16 (x : Int) : Int := (x + 32768) % 65536 - 32768

/-- Reduction of an integer to the `uint16_t` range. -/
def toUInt16 (x : Int) : Nat := (x % 65536).toNat

/-- Reduction of an integer to the `uint8_t` range. -/
def toUInt8 (x : Int) : Nat := (x % 256).toNat

/-- The C library `abs` on a 16-bit `int`. -/
def c_abs (x : Int) : Int := if x < 0 then toInt16 (-x) else x

/-! ## Constants (lines 10-46) -/

/-- Line 11: first enumerator of `operating_mode_t`. -/
def OPERATING_MODE_INTIALISING : Nat := 0
/-- Line 12. -/
def OPERATING_MODE_WAITING_MIDPOINT : Nat := 1
/-- Line 13. -/
def OPERATING_MODE_FINDING_MIDPOINT : Nat := 2
/-- Line 14. -/
def OPERATING_MODE_WORKING : Nat := 3

/-- Line 27. -/
def INPUT_DEAD_ZONE : Int := 5
/-- Line 29. -/
def OUTPUT_DEAD_ZONE_OFFSET : Int := 60
/-- Line 33. -/
def OUTPUT_SCALE_MUL : Int := 6
/-- Line 34. -/
def OUTPUT_SCALE_DIV : Int := 8
/-- Line 37. -/
def MIDPOINT_SAMPLE_COUNT : Nat := 64
/-- Line 42. -/
def MIDPOINT_WAIT_DEAD_ZONE : Int := 128
/-- Line 44. -/
def MIDPOINT_WAIT_TIME : Nat := 20000

/-! ## State -/

/-- The global variables read and written by the handler, the EEPROM byte at
`CORRECTING_EEPROM_ADDRESS` and the PWM compare register `OCR1A`. -/
structure State where
  /-- Line 15: `volatile enum operating_mode_t operating_mode`. -/
  operating_mode : Nat
  /-- Line 19: `volatile uint8_t correcting`. -/
  correcting : Nat
  /-- Line 24: `volatile uint16_t midpoint`. -/
  midpoint : Nat
  /-- Line 39: `volatile uint8_t midpoint_samples_pending`. -/
  midpoint_samples_pending : Nat
  /-- Line 46: `volatile uint16_t waiting_midpoint_timer`. -/
  waiting_midpoint_timer : Nat
  /-- The EEPROM byte at address `CORRECTING_EEPROM_ADDRESS`. -/
  eeprom : Nat
  /-- The 16-bit PWM compare register. -/
  OCR1A : Nat
  deriving DecidableEq

/-- The state when the first interrupt can fire: the initialisers of lines
15-46, `OCR1A = 512` from line 146, and whatever byte the EEPROM holds. -/
def power_on (eeprom : Nat) : State :=
  { operating_mode := OPERATING_MODE_INTIALISING
    correcting := 1
    midpoint := 0
    midpoint_samples_pending := MIDPOINT_SAMPLE_COUNT
    waiting_midpoint_timer := 0
    eeprom := eeprom
    OCR1A := 512 }

/-! ## The Working-phase transform (lines 94-129) -/

/-- Lines 100-112: the input dead zone. -/
def input_dead_zone (value : Int) : Int :=
  if value > 0 then
    if value < INPUT_DEAD_ZONE then 0
    else toInt16 (value - INPUT_DEAD_ZONE)
  else if value < 0 then
    if value > -INPUT_DEAD_ZONE then 0
    else toInt16 (value + INPUT_DEAD_ZONE)
  else value

/-- Lines 115-116: `value *= OUTPUT_SCALE_MUL; value /= OUTPUT_SCALE_DIV;`
(C division truncates toward zero). -/
def output_scale (value : Int) : Int :=
  let value := toInt16 (value * OUTPUT_SCALE_MUL)
  toInt16 (Int.tdiv value OUTPUT_SCALE_DIV)

/-- Lines 119-123: the output dead zone compensation. -/
def output_dead_zone (value : Int) : Int :=
  if value > 0 then toInt16 (value + OUTPUT_DEAD_ZONE_OFFSET)
  else if value < 0 then toInt16 (value - OUTPUT_DEAD_ZONE_OFFSET)
  else value

/-- Lines 99-123: the body of `if (correcting) { ... }`. -/
def correction (value : Int) : Int :=
  output_dead_zone (output_scale (input_dead_zone value))

/-- Lines 94-127: the local `value` just before the clamp of lines 128-129.
Line 94 subtracts the `uint16_t` midpoint in unsigned arithmetic and stores the
result back into the `int16_t` local. -/
def working_value (correcting midpoint : Nat) (value : Int) : Int :=
  let value := toInt16 (toUInt16 (value - midpoint))
  let value := if correcting ≠ 0 then correction value else value
  toInt16 (value + 512)

/-- Lines 128-129: the two clamping statements. -/
def clamp_output (value : Int) : Int :=
  let value := if value < 0 then 0 else value
  if value > 1023 then 1023 else value

/-! ## The interrupt handler (lines 48-139) -/

/-- One run of `ISR(ADC_vect)` on the state `s` when the ADC data register
reads `ADC`. -/
def ISR (s : State) (ADC : Nat) : State :=
  let value : Int := toInt16 ADC
  if s.operating_mode = OPERATING_MODE_INTIALISING then
    let s := { s with operating_mode := OPERATING_MODE_WAITING_MIDPOINT }
    let s := { s with waiting_midpoint_timer := MIDPOINT_WAIT_TIME }
    let s :=
      if value < 256 then { s with correcting := 1 }
      else if value ≥ 768 then { s with correcting := 0 }
      else
        let s := { s with waiting_midpoint_timer := s.waiting_midpoint_timer / 2 }
        { s with correcting := if s.eeprom ≠ 0 then 1 else 0 }
    { s with eeprom := s.correcting }
  else if s.operating_mode = OPERATING_MODE_WAITING_MIDPOINT then
    if c_abs (toInt16 (value - 512)) > MIDPOINT_WAIT_DEAD_ZONE then
      { s with waiting_midpoint_timer := MIDPOINT_WAIT_TIME }
    else
      let s := { s with waiting_midpoint_timer := toUInt16 (s.waiting_midpoint_timer - 1) }
      if s.waiting_midpoint_timer = 0 then
        let s := { s with midpoint := 0 }
        let s := { s with midpoint_samples_pending := MIDPOINT_SAMPLE_COUNT }
        { s with operating_mode := OPERATING_MODE_FINDING_MIDPOINT }
      else s
  else if s.operating_mode = OPERATING_MODE_FINDING_MIDPOINT then
    let s := { s with midpoint := toUInt16 (s.midpoint + value) }
    let s := { s with midpoint_samples_pending := toUInt8 (s.midpoint_samples_pending - 1) }
    if s.midpoint_samples_pending = 0 then
      let s := { s with midpoint := s.midpoint / MIDPOINT_SAMPLE_COUNT }
      { s with operating_mode := OPERATING_MODE_WORKING }
    else s
  else if s.operating_mode = OPERATING_MODE_WORKING then
    let value := clamp_output (working_value s.correcting s.midpoint value)
    { s with OCR1A := toUInt16 value }
  else
    { s with operating_mode := OPERATING_MODE_INTIALISING }

/-- The handler run once per sample, in arrival order. -/
def run (s : State) (samples : List Nat) : State :=
  samples.foldl ISR s

/-! ## The reference transform, as the specification words it -/

/-- Reference dead-zone step: `0` if `|x| < 5`, otherwise `x - 5` for `x > 0`
and `x + 5` for `x < 0`. -/
def ref_dead_zone (x : Int) : Int :=
  if |x| < 5 then 0 else if x > 0 then x - 5 else x + 5

/-- Reference scale step: `d * 6` divided by `8`, truncating toward zero. -/
def ref_scale (d : Int) : Int := Int.tdiv (d * 6) 8

/-- Reference offset step: `s + 60` if `s > 0`, `s - 60` if `s < 0`, else `0`. -/
def ref_offset (s : Int) : Int :=
  if s > 0 then s + 60 else if s < 0 then s - 60 else 0

/-- Reference clamp of `v` to `lo..hi`. -/
def ref_clamp (v lo hi : Int) : Int := max lo (min v hi)

/-- Reference output with correction enabled: `clamp(512 + o, 0, 1023)` for the
raw sample `r` and midpoint `m`. -/
def ref_output (r m : Nat) : Int :=
  ref_clamp (512 + ref_offset (ref_scale (ref_dead_zone ((r : Int) - (m : Int))))) 0 1023


/-! ## Range bookkeeping for the 16-bit arithmetic -/

/-- Lines 94-127 once more, collecting the mathematical result of every arithmetic
statement on the `int16_t` local before it is stored back: `value - midpoint` (line 94),
the dead-zone subtraction or addition (lines 104 and 110), the product (line 115), the
quotient (line 116), the offset sum or difference (lines 120 and 122) and `value + 512`
(line 127). Each statement is applied to the value the handler holds at that point, so a
result outside `-32768..32767` is exactly a wraparound. -/
def working_intermediates (correcting midpoint : Nat) (value : Int) : List Int :=
  let r94 := value - midpoint
  let value := toInt16 (toUInt16 r94)
  if correcting ≠ 0 then
    let r104 :=
      if value > 0 then
        if value < INPUT_DEAD_ZONE then 0 else value - INPUT_DEAD_ZONE
      else if value < 0 then
        if value > -INPUT_DEAD_ZONE then 0 else value + INPUT_DEAD_ZONE
      else value
    let value := input_dead_zone value
    let r115 := value * OUTPUT_SCALE_MUL
    let value := toInt16 r115
    let r116 := Int.tdiv value OUTPUT_SCALE_DIV
    let value := toInt16 r116
    let r120 :=
      if value > 0 then value + OUTPUT_DEAD_ZONE_OFFSET
      else if value < 0 then value - OUTPUT_DEAD_ZONE_OFFSET
      else value
    let value := output_dead_zone value
    let r127 := value + 512
    [r94, r104, r115, r116, r120, r127]
  else
    [r94, value + 512]

/-- The ranges the calibration variables keep in each phase along a run from power-on:
the midpoint is 0 before FindingMidpoint, the settle timer is in `1..20000` while
waiting, the pending counter is in `1..64` and the accumulator at most 1023 per sample
taken while finding, and the finished midpoint is at most 1023. -/
def calibration_ranges (s : State) : Prop :=
  s.operating_mode ≤ 3 ∧
  (s.operating_mode = OPERATING_MODE_INTIALISING → s.midpoint = 0) ∧
  (s.operating_mode = OPERATING_MODE_WAITING_MIDPOINT →
    s.midpoint = 0 ∧ 1 ≤ s.waiting_midpoint_timer ∧
      s.waiting_midpoint_timer ≤ MIDPOINT_WAIT_TIME) ∧
  (s.operating_mode = OPERATING_MODE_FINDING_MIDPOINT →
    1 ≤ s.midpoint_samples_pending ∧ s.midpoint_samples_pending ≤ MIDPOINT_SAMPLE_COUNT ∧
      s.midpoint ≤ 1023 * (MIDPOINT_SAMPLE_COUNT - s.midpoint_samples_pending)) ∧
  (s.operating_mode = OPERATING_MODE_WORKING → s.midpoint ≤ 1023)

instance calibration_ranges_decidable (s : State) : Decidable (calibration_ranges s) := by
  unfold calibration_ranges; infer_instance


theorem toInt16_of_range {x : Int} (h1 : -32768 ≤ x) (h2 : x ≤ 32767) : toInt16 x = x := by
  unfold toInt16; omega

theorem toUInt16_cast (x : Int) : ((toUInt16 x : Nat) : Int) = x % 65536 := by
  unfold toUInt16; omega

theorem toUInt16_of_range {x : Int} (h1 : 0 ≤ x) (h2 : x ≤ 65535) : ((toUInt16 x : Nat) : Int) = x := by
  unfold toUInt16; omega

theorem tdiv_eight (y : Int) :
    Int.tdiv y 8 = if 0 ≤ y then y / 8 else -((-y) / 8) := by
  split_ifs with h
  · exact Int.tdiv_eq_ediv h (by decide)
  · have h2 : Int.tdiv (-y) 8 = (-y) / 8 := Int.tdiv_eq_ediv (by omega) (by decide)
    rw [Int.neg_tdiv] at h2
    omega

theorem centred_eq {x : Int} (h1 : -32768 ≤ x) (h2 : x ≤ 32767) :
    toInt16 (toUInt16 x) = x := by
  rw [toUInt16_cast]; unfold toInt16; omega

theorem input_dead_zone_eq {x : Int} (h1 : -1023 ≤ x) (h2 : x ≤ 1023) :
    input_dead_zone x = ref_dead_zone x ∧ -1018 ≤ input_dead_zone x ∧ input_dead_zone x ≤ 1018 := by
  unfold input_dead_zone ref_dead_zone INPUT_DEAD_ZONE toInt16
  simp only [abs_lt]
  split_ifs <;> omega

theorem output_scale_eq {d : Int} (h1 : -1018 ≤ d) (h2 : d ≤ 1018) :
    output_scale d = ref_scale d ∧ -763 ≤ output_scale d ∧ output_scale d ≤ 763 := by
  unfold output_scale ref_scale OUTPUT_SCALE_MUL OUTPUT_SCALE_DIV
  simp only []
  rw [toInt16_of_range (x := d * 6) (by omega) (by omega)]
  have hb : -763 ≤ Int.tdiv (d * 6) 8 ∧ Int.tdiv (d * 6) 8 ≤ 763 := by
    rw [tdiv_eight]; split_ifs <;> omega
  rw [toInt16_of_range (x := Int.tdiv (d * 6) 8) (by omega) (by omega)]
  exact ⟨rfl, hb⟩

theorem output_dead_zone_eq {s : Int} (h1 : -763 ≤ s) (h2 : s ≤ 763) :
    output_dead_zone s = ref_offset s ∧ -823 ≤ output_dead_zone s ∧ output_dead_zone s ≤ 823 := by
  unfold output_dead_zone ref_offset OUTPUT_DEAD_ZONE_OFFSET toInt16
  split_ifs <;> omega


theorem correction_eq {x : Int} (h1 : -1023 ≤ x) (h2 : x ≤ 1023) :
    correction x = ref_offset (ref_scale (ref_dead_zone x)) ∧
      -823 ≤ correction x ∧ correction x ≤ 823 := by
  obtain ⟨e1, l1, u1⟩ := input_dead_zone_eq h1 h2
  obtain ⟨e2, l2, u2⟩ := output_scale_eq l1 u1
  obtain ⟨e3, l3, u3⟩ := output_dead_zone_eq l2 u2
  unfold correction
  refine ⟨?_, l3, u3⟩
  rw [e3, e2, e1]

theorem toInt16_sample {r : Nat} (hr : r ≤ 1023) : toInt16 (r : Int) = r := by
  unfold toInt16; omega

theorem working_value_exact (c m r : Nat) (hr : r ≤ 1023) (hm : m ≤ 1023) :
    working_value c m (toInt16 r) =
      (if c ≠ 0 then correction ((r : Int) - m) else (r : Int) - m) + 512 := by
  unfold working_value
  simp only []
  rw [toInt16_sample hr, centred_eq (by omega) (by omega)]
  obtain ⟨_, l, u⟩ := correction_eq (x := (r : Int) - m) (by omega) (by omega)
  split_ifs
  · exact toInt16_of_range (by omega) (by omega)
  · exact toInt16_of_range (by omega) (by omega)

theorem clamp_output_eq (v : Int) : clamp_output v = ref_clamp v 0 1023 := by
  unfold clamp_output ref_clamp
  simp only []
  split_ifs <;> omega

theorem clamp_output_range (v : Int) : 0 ≤ clamp_output v ∧ clamp_output v ≤ 1023 := by
  unfold clamp_output
  simp only []
  split_ifs <;> omega

theorem ISR_working (s : State) (r : Nat) (hmode : s.operating_mode = OPERATING_MODE_WORKING) :
    ISR s r =
      { s with OCR1A := toUInt16 (clamp_output (working_value s.correcting s.midpoint (toInt16 r))) } := by
  unfold ISR
  simp [hmode, OPERATING_MODE_WORKING, OPERATING_MODE_INTIALISING,
    OPERATING_MODE_WAITING_MIDPOINT, OPERATING_MODE_FINDING_MIDPOINT]

theorem ISR_working_OCR1A (s : State) (r : Nat)
    (hmode : s.operating_mode = OPERATING_MODE_WORKING) :
    ((ISR s r).OCR1A : Int) =
      clamp_output (working_value s.correcting s.midpoint (toInt16 r)) := by
  rw [ISR_working s r hmode]
  have h := clamp_output_range (working_value s.correcting s.midpoint (toInt16 r))
  exact toUInt16_of_range h.1 (by omega)

/-- C1: in the Working phase with a non-zero correction flag, for every raw sample and
midpoint in 0..1023 the value written to the output register is the reference transform
`clamp(512 + o, 0, 1023)`. -/
theorem working_output_correcting (s : State) (r : Nat)
    (hmode : s.operating_mode = OPERATING_MODE_WORKING) (hc : s.correcting ≠ 0)
    (hr : r ≤ 1023) (hm : s.midpoint ≤ 1023) :
    ((ISR s r).OCR1A : Int) = ref_output r s.midpoint := by
  rw [ISR_working_OCR1A s r hmode, working_value_exact _ _ _ hr hm, if_pos hc,
    clamp_output_eq]
  obtain ⟨e, _, _⟩ := correction_eq (x := (r : Int) - s.midpoint) (by omega) (by omega)
  rw [e, add_comm]
  rfl

/-- C1 at midpoint 512 and raw sample 550: the stages are 38, 33, 24, 84 and the
register receives 596. -/
theorem working_output_correcting_witness :
    ((ISR ⟨OPERATING_MODE_WORKING, 1, 512, 0, 0, 1, 512⟩ 550).OCR1A : Int) = ref_output 550 512 ∧
      ref_output 550 512 = 596 ∧
      input_dead_zone 38 = 33 ∧ output_scale 33 = 24 ∧ output_dead_zone 24 = 84 :=
  ⟨working_output_correcting ⟨OPERATING_MODE_WORKING, 1, 512, 0, 0, 1, 512⟩ 550 rfl
      (by decide) (by decide) (by decide),
    by decide, by decide, by decide, by decide⟩

/-- C2: in the Working phase with the correction flag zero, for every raw sample and
midpoint in 0..1023 the value written to the output register is
`clamp(r - m + 512, 0, 1023)`; with midpoint 512 it is the raw sample itself. -/
theorem working_output_not_correcting (s : State) (r : Nat)
    (hmode : s.operating_mode = OPERATING_MODE_WORKING) (hc : s.correcting = 0)
    (hr : r ≤ 1023) (hm : s.midpoint ≤ 1023) :
    ((ISR s r).OCR1A : Int) = ref_clamp ((r : Int) - s.midpoint + 512) 0 1023 ∧
      (s.midpoint = 512 → (ISR s r).OCR1A = r) := by
  have h : ((ISR s r).OCR1A : Int) = ref_clamp ((r : Int) - s.midpoint + 512) 0 1023 := by
    rw [ISR_working_OCR1A s r hmode, working_value_exact _ _ _ hr hm, if_neg (by simp [hc]),
      clamp_output_eq]
  refine ⟨h, fun h512 => ?_⟩
  rw [h512] at h
  unfold ref_clamp at h
  omega

/-- C2 at midpoint 512 and raw sample 600: the register receives 600. -/
theorem working_output_not_correcting_witness :
    (ISR ⟨OPERATING_MODE_WORKING, 0, 512, 0, 0, 0, 512⟩ 600).OCR1A = 600 :=
  (working_output_not_correcting ⟨OPERATING_MODE_WORKING, 0, 512, 0, 0, 0, 512⟩ 600 rfl rfl
    (by decide) (by decide)).2 rfl

/-- C3: for every Working-phase step, with either value of the correction flag and raw
sample and midpoint in 0..1023, the value before the clamp is the transformed value plus
512 without wraparound, and the value written to the output register lies in 0..1023: it
is 0 when the value before the clamp is negative, 1023 when that value exceeds 1023, and
that value itself otherwise. -/
theorem working_output_clamped (s : State) (r : Nat)
    (hmode : s.operating_mode = OPERATING_MODE_WORKING)
    (hr : r ≤ 1023) (hm : s.midpoint ≤ 1023) :
    working_value s.correcting s.midpoint (toInt16 r) =
        (if s.correcting ≠ 0 then correction ((r : Int) - s.midpoint)
          else (r : Int) - s.midpoint) + 512 ∧
      (ISR s r).OCR1A ≤ 1023 ∧
      (working_value s.correcting s.midpoint (toInt16 r) < 0 → (ISR s r).OCR1A = 0) ∧
      (working_value s.correcting s.midpoint (toInt16 r) > 1023 → (ISR s r).OCR1A = 1023) ∧
      (0 ≤ working_value s.correcting s.midpoint (toInt16 r) →
        working_value s.correcting s.midpoint (toInt16 r) ≤ 1023 →
        ((ISR s r).OCR1A : Int) = working_value s.correcting s.midpoint (toInt16 r)) := by
  refine ⟨working_value_exact _ _ _ hr hm, ?_⟩
  have h := ISR_working_OCR1A s r hmode
  generalize working_value s.correcting s.midpoint (toInt16 r) = v at h
  generalize (ISR s r).OCR1A = o at h
  unfold clamp_output at h
  simp only [] at h
  split_ifs at h <;> omega

/-- C3 at three inputs with correction enabled: sample 0 against midpoint 1023 is clamped
to 0, sample 1023 against midpoint 0 is clamped to 1023, sample 550 against midpoint 512
is written unclamped. -/
theorem working_output_clamped_witness :
    (ISR ⟨OPERATING_MODE_WORKING, 1, 1023, 0, 0, 1, 512⟩ 0).OCR1A = 0 ∧
      (ISR ⟨OPERATING_MODE_WORKING, 1, 0, 0, 0, 1, 512⟩ 1023).OCR1A = 1023 ∧
      ((ISR ⟨OPERATING_MODE_WORKING, 1, 512, 0, 0, 1, 512⟩ 550).OCR1A : Int) = 596 :=
  ⟨(working_output_clamped ⟨OPERATING_MODE_WORKING, 1, 1023, 0, 0, 1, 512⟩ 0 rfl
      (by decide) (by decide)).2.2.1 (by decide),
    (working_output_clamped ⟨OPERATING_MODE_WORKING, 1, 0, 0, 0, 1, 512⟩ 1023 rfl
      (by decide) (by decide)).2.2.2.1 (by decide),
    (working_output_clamped ⟨OPERATING_MODE_WORKING, 1, 512, 0, 0, 1, 512⟩ 550 rfl
      (by decide) (by decide)).2.2.2.2 (by decide) (by decide)⟩

/-- C4: in the Working phase with correction enabled, for every raw sample and midpoint in
0..1023 whose difference has magnitude below the input dead-zone width 5, the value
written to the output register is exactly 512. -/
theorem working_output_input_dead_zone (s : State) (r : Nat)
    (hmode : s.operating_mode = OPERATING_MODE_WORKING) (hc : s.correcting ≠ 0)
    (hr : r ≤ 1023) (hm : s.midpoint ≤ 1023)
    (hx : |(r : Int) - s.midpoint| < INPUT_DEAD_ZONE) :
    (ISR s r).OCR1A = 512 := by
  have h := ISR_working_OCR1A s r hmode
  rw [working_value_exact _ _ _ hr hm, if_pos hc] at h
  have hz : correction ((r : Int) - s.midpoint) = 0 := by
    unfold INPUT_DEAD_ZONE at hx
    rw [abs_lt] at hx
    have hd : input_dead_zone ((r : Int) - s.midpoint) = 0 := by
      unfold input_dead_zone INPUT_DEAD_ZONE
      split_ifs <;> omega
    unfold correction
    rw [hd]
    decide
  rw [hz] at h
  have h2 : clamp_output (0 + 512) = 512 := by decide
  rw [h2] at h
  omega

/-- C4 at midpoint 512 and raw sample 515: the register receives 512. -/
theorem working_output_input_dead_zone_witness :
    (ISR ⟨OPERATING_MODE_WORKING, 1, 512, 0, 0, 1, 0⟩ 515).OCR1A = 512 :=
  working_output_input_dead_zone ⟨OPERATING_MODE_WORKING, 1, 512, 0, 0, 1, 0⟩ 515 rfl
    (by decide) (by decide) (by decide) (by decide)

theorem correction_cases {x : Int} (h1 : -1023 ≤ x) (h2 : x ≤ 1023) :
    (0 < x → correction x = 0 ∨ 60 < correction x) ∧
      (x < 0 → correction x = 0 ∨ correction x < -60) ∧
      (x = 0 → correction x = 0) := by
  obtain ⟨e, _, _⟩ := correction_eq h1 h2
  rw [e]
  unfold ref_offset ref_scale ref_dead_zone
  simp only [abs_lt, tdiv_eight]
  split_ifs <;> omega

/-- C5: in the Working phase with correction enabled, for every raw sample and midpoint in
0..1023 the value written to the output register is either exactly 512 or differs from
512 by more than the output offset 60, so it lies neither in 452..511 nor in 513..572. -/
theorem working_output_skips_output_dead_zone (s : State) (r : Nat)
    (hmode : s.operating_mode = OPERATING_MODE_WORKING) (hc : s.correcting ≠ 0)
    (hr : r ≤ 1023) (hm : s.midpoint ≤ 1023) :
    ((ISR s r).OCR1A = 512 ∨ OUTPUT_DEAD_ZONE_OFFSET < |((ISR s r).OCR1A : Int) - 512|) ∧
      ¬ (452 ≤ (ISR s r).OCR1A ∧ (ISR s r).OCR1A ≤ 511) ∧
      ¬ (513 ≤ (ISR s r).OCR1A ∧ (ISR s r).OCR1A ≤ 572) := by
  have h := ISR_working_OCR1A s r hmode
  rw [working_value_exact _ _ _ hr hm, if_pos hc] at h
  obtain ⟨hp, hn, hz⟩ := correction_cases (x := (r : Int) - s.midpoint) (by omega) (by omega)
  generalize correction ((r : Int) - s.midpoint) = c at h hp hn hz
  generalize (ISR s r).OCR1A = o at h
  unfold clamp_output at h
  simp only [] at h
  unfold OUTPUT_DEAD_ZONE_OFFSET
  rw [lt_abs]
  split_ifs at h <;> omega

/-- C5 at midpoint 512: the smallest moving samples 519 and 505 give 573 and 451. -/
theorem working_output_skips_output_dead_zone_witness :
    ((ISR ⟨OPERATING_MODE_WORKING, 1, 512, 0, 0, 1, 512⟩ 519).OCR1A = 512 ∨
        OUTPUT_DEAD_ZONE_OFFSET
          < |((ISR ⟨OPERATING_MODE_WORKING, 1, 512, 0, 0, 1, 512⟩ 519).OCR1A : Int) - 512|) ∧
      (ISR ⟨OPERATING_MODE_WORKING, 1, 512, 0, 0, 1, 512⟩ 519).OCR1A = 573 ∧
      (ISR ⟨OPERATING_MODE_WORKING, 1, 512, 0, 0, 1, 512⟩ 505).OCR1A = 451 :=
  ⟨(working_output_skips_output_dead_zone ⟨OPERATING_MODE_WORKING, 1, 512, 0, 0, 1, 512⟩ 519 rfl
      (by decide) (by decide) (by decide)).1,
    by decide, by decide⟩

/-- C6: for every raw sample and midpoint in 0..1023 the handler's zero-centred value is
`x = r - m`, and the correction transform (dead zone, scale, output offset; before 512 is
added and the result clamped) returns a value `≥ 0` when `x > 0` and a value `≤ 0` when
`x < 0`: it never flips the sign of a non-zero input. -/
theorem correction_preserves_sign (r m : Nat) (hr : r ≤ 1023) (hm : m ≤ 1023) :
    toInt16 (toUInt16 (toInt16 r - m)) = (r : Int) - m ∧
      (0 < (r : Int) - m → 0 ≤ correction ((r : Int) - m)) ∧
      ((r : Int) - m < 0 → correction ((r : Int) - m) ≤ 0) := by
  obtain ⟨hp, hn, _⟩ := correction_cases (x := (r : Int) - m) (by omega) (by omega)
  rw [toInt16_sample hr]
  refine ⟨centred_eq (by omega) (by omega), fun h => ?_, fun h => ?_⟩
  · have := hp h; omega
  · have := hn h; omega

/-- C6 at midpoint 512: raw sample 550 (x = 38) is corrected to 84 and raw sample 474
(x = -38) to -84. -/
theorem correction_preserves_sign_witness :
    0 ≤ correction (((550 : Nat) : Int) - (512 : Nat)) ∧
      correction (((474 : Nat) : Int) - (512 : Nat)) ≤ 0 ∧
      correction 38 = 84 ∧ correction (-38) = -84 :=
  ⟨(correction_preserves_sign 550 512 (by decide) (by decide)).2.1 (by decide),
    (correction_preserves_sign 474 512 (by decide) (by decide)).2.2 (by decide),
    by decide, by decide⟩

theorem run_nil (s : State) : run s [] = s := rfl

theorem run_cons (s : State) (v : Nat) (vs : List Nat) : run s (v :: vs) = run (ISR s v) vs := rfl

theorem run_append (s : State) (as bs : List Nat) : run s (as ++ bs) = run (run s as) bs := by
  unfold run; exact List.foldl_append ..

theorem sum_le_of_forall_le (vs : List Nat) (b : Nat) (hv : ∀ v ∈ vs, v ≤ b) :
    vs.sum ≤ b * vs.length := by
  induction vs with
  | nil => simp
  | cons a t ih =>
    have ha := hv a (List.mem_cons_self a t)
    have ht := ih (fun v hvt => hv v (List.mem_cons_of_mem a hvt))
    simp only [List.sum_cons, List.length_cons]
    rw [Nat.mul_succ]
    omega

theorem ISR_finding_step (s : State) (v : Nat)
    (hmode : s.operating_mode = OPERATING_MODE_FINDING_MIDPOINT)
    (hp : 2 ≤ s.midpoint_samples_pending) (hp8 : s.midpoint_samples_pending ≤ 255)
    (hv : v ≤ 1023) (hsum : s.midpoint + v ≤ 65535) :
    ISR s v = { s with midpoint := s.midpoint + v
                       midpoint_samples_pending := s.midpoint_samples_pending - 1 } := by
  have e1 : toUInt16 ((s.midpoint : Int) + toInt16 (v : Int)) = s.midpoint + v := by
    rw [toInt16_sample hv]; unfold toUInt16; omega
  have e2 : toUInt8 ((s.midpoint_samples_pending : Int) - 1) = s.midpoint_samples_pending - 1 := by
    unfold toUInt8; omega
  have e3 : s.midpoint_samples_pending - 1 ≠ 0 := by omega
  unfold ISR
  simp [hmode, OPERATING_MODE_WORKING, OPERATING_MODE_INTIALISING,
    OPERATING_MODE_WAITING_MIDPOINT, OPERATING_MODE_FINDING_MIDPOINT, e1, e2, e3]

theorem ISR_finding_last (s : State) (v : Nat)
    (hmode : s.operating_mode = OPERATING_MODE_FINDING_MIDPOINT)
    (hp : s.midpoint_samples_pending = 1)
    (hv : v ≤ 1023) (hsum : s.midpoint + v ≤ 65535) :
    ISR s v = { s with midpoint := (s.midpoint + v) / MIDPOINT_SAMPLE_COUNT
                       midpoint_samples_pending := 0
                       operating_mode := OPERATING_MODE_WORKING } := by
  have e1 : toUInt16 ((s.midpoint : Int) + toInt16 (v : Int)) = s.midpoint + v := by
    rw [toInt16_sample hv]; unfold toUInt16; omega
  have e2 : toUInt8 ((s.midpoint_samples_pending : Int) - 1) = 0 := by
    rw [hp]; decide
  unfold ISR
  simp [hmode, OPERATING_MODE_WORKING, OPERATING_MODE_INTIALISING,
    OPERATING_MODE_WAITING_MIDPOINT, OPERATING_MODE_FINDING_MIDPOINT, e1, e2]

theorem run_finding (vs : List Nat) : ∀ (s : State),
    s.operating_mode = OPERATING_MODE_FINDING_MIDPOINT →
    vs.length < s.midpoint_samples_pending → s.midpoint_samples_pending ≤ 255 →
    (∀ v ∈ vs, v ≤ 1023) → s.midpoint + vs.sum ≤ 65535 →
    run s vs = { s with midpoint := s.midpoint + vs.sum
                        midpoint_samples_pending := s.midpoint_samples_pending - vs.length } := by
  induction vs with
  | nil => intro s _ _ _ _ _; simp [run_nil]
  | cons a t ih =>
    intro s hmode hlen hp8 hv hsum
    simp only [List.length_cons, List.sum_cons] at hlen hsum
    have ha := hv a (List.mem_cons_self a t)
    rw [run_cons, ISR_finding_step s a hmode (by omega) hp8 ha (by omega)]
    rw [ih { s with midpoint := s.midpoint + a
                    midpoint_samples_pending := s.midpoint_samples_pending - 1 }
      hmode (by show t.length < s.midpoint_samples_pending - 1; omega)
      (by show s.midpoint_samples_pending - 1 ≤ 255; omega)
      (fun v hvt => hv v (List.mem_cons_of_mem a hvt))
      (by show s.midpoint + a + t.sum ≤ 65535; omega)]
    simp only [List.length_cons, List.sum_cons, State.mk.injEq, true_and, and_true]
    omega

/-- C7: from the state in which FindingMidpoint is entered (accumulator 0, pending
counter 64), any 64 samples in 0..1023 leave the phase at FindingMidpoint after each of
the first 63 samples; the 64th sample sets the phase to Working and the midpoint to the
sum of the samples divided by 64, rounded down, and the sum fits the 16-bit variable. -/
theorem midpoint_finalization (s : State) (vs : List Nat)
    (hmode : s.operating_mode = OPERATING_MODE_FINDING_MIDPOINT)
    (hacc : s.midpoint = 0) (hpend : s.midpoint_samples_pending = MIDPOINT_SAMPLE_COUNT)
    (hlen : vs.length = MIDPOINT_SAMPLE_COUNT) (hv : ∀ v ∈ vs, v ≤ 1023) :
    (∀ k, k ≤ 63 → (run s (vs.take k)).operating_mode = OPERATING_MODE_FINDING_MIDPOINT) ∧
      (run s vs).operating_mode = OPERATING_MODE_WORKING ∧
      (run s vs).midpoint = vs.sum / 64 ∧
      vs.sum ≤ 65535 := by
  unfold MIDPOINT_SAMPLE_COUNT at hpend hlen
  have hpre : ∀ k, k ≤ 63 →
      run s (vs.take k) = { s with midpoint := (vs.take k).sum
                                   midpoint_samples_pending := 64 - k } := by
    intro k hk
    have hlk : (vs.take k).length = k := by rw [List.length_take]; omega
    have hvk : ∀ v ∈ vs.take k, v ≤ 1023 := fun v hm => hv v (List.mem_of_mem_take hm)
    have hsk := sum_le_of_forall_le (vs.take k) 1023 hvk
    rw [hlk] at hsk
    rw [run_finding (vs.take k) s hmode (by omega) (by omega) hvk (by omega), hlk, hacc, hpend,
      Nat.zero_add]
  have hsum := sum_le_of_forall_le vs 1023 hv
  rw [hlen] at hsum
  obtain ⟨x, hx⟩ : ∃ x, vs.drop 63 = [x] := by
    have hl : (vs.drop 63).length = 1 := by rw [List.length_drop]; omega
    match hd : vs.drop 63, hl with
    | [x], _ => exact ⟨x, rfl⟩
  have hsplit : vs = vs.take 63 ++ [x] := by rw [← hx]; exact (List.take_append_drop 63 vs).symm
  have hxm : x ≤ 1023 := hv x (by rw [hsplit]; simp)
  have hs63 : vs.sum = (vs.take 63).sum + x := by
    conv_lhs => rw [hsplit]
    simp
  have hrun : run s vs = ISR (run s (vs.take 63)) x := by
    conv_lhs => rw [hsplit]
    rw [run_append]; rfl
  have hfin : run s vs = { s with midpoint := vs.sum / 64
                                  midpoint_samples_pending := 0
                                  operating_mode := OPERATING_MODE_WORKING } := by
    rw [hrun, hpre 63 (by omega),
      ISR_finding_last { s with midpoint := (vs.take 63).sum
                                midpoint_samples_pending := 64 - 63 } x hmode rfl hxm
        (by show (vs.take 63).sum + x ≤ 65535; omega), hs63]
    rfl
  refine ⟨fun k hk => ?_, ?_, ?_, by omega⟩
  · rw [hpre k hk]; exact hmode
  · rw [hfin]
  · rw [hfin]

/-- C7 on 64 samples of value 1023, the largest possible sum: the phase is still
FindingMidpoint after 63 samples, and the 64th enters Working with midpoint 1023. -/
theorem midpoint_finalization_witness :
    (run ⟨OPERATING_MODE_FINDING_MIDPOINT, 1, 0, 64, 0, 1, 512⟩
        ((List.replicate 64 1023).take 63)).operating_mode = OPERATING_MODE_FINDING_MIDPOINT ∧
      (run ⟨OPERATING_MODE_FINDING_MIDPOINT, 1, 0, 64, 0, 1, 512⟩
        (List.replicate 64 1023)).operating_mode = OPERATING_MODE_WORKING ∧
      (run ⟨OPERATING_MODE_FINDING_MIDPOINT, 1, 0, 64, 0, 1, 512⟩
        (List.replicate 64 1023)).midpoint = (List.replicate 64 1023).sum / 64 ∧
      (List.replicate 64 1023).sum / 64 = 1023 :=
  ⟨(midpoint_finalization ⟨OPERATING_MODE_FINDING_MIDPOINT, 1, 0, 64, 0, 1, 512⟩
      (List.replicate 64 1023) rfl rfl rfl (by decide) (by decide)).1 63 (by decide),
    (midpoint_finalization ⟨OPERATING_MODE_FINDING_MIDPOINT, 1, 0, 64, 0, 1, 512⟩
      (List.replicate 64 1023) rfl rfl rfl (by decide) (by decide)).2.1,
    (midpoint_finalization ⟨OPERATING_MODE_FINDING_MIDPOINT, 1, 0, 64, 0, 1, 512⟩
      (List.replicate 64 1023) rfl rfl rfl (by decide) (by decide)).2.2.1,
    by decide⟩

theorem band_test (v : Nat) (hv : v ≤ 1023) :
    c_abs (toInt16 (toInt16 (v : Int) - 512)) > MIDPOINT_WAIT_DEAD_ZONE ↔ |(v : Int) - 512| > 128 := by
  rw [toInt16_sample hv, toInt16_of_range (by omega) (by omega)]
  unfold c_abs MIDPOINT_WAIT_DEAD_ZONE toInt16
  rw [gt_iff_lt, gt_iff_lt, lt_abs]
  split_ifs <;> omega

theorem in_band_le {v : Nat} (h : |(v : Int) - 512| ≤ 128) : 384 ≤ v ∧ v ≤ 640 := by
  rw [abs_le] at h; omega

theorem in_band_test {v : Nat} (h : |(v : Int) - 512| ≤ 128) :
    ¬ c_abs (toInt16 (toInt16 (v : Int) - 512)) > MIDPOINT_WAIT_DEAD_ZONE := by
  have hv := in_band_le h
  rw [band_test v (by omega)]; omega

theorem ISR_waiting_reset (s : State) (v : Nat)
    (hmode : s.operating_mode = OPERATING_MODE_WAITING_MIDPOINT)
    (hv : v ≤ 1023) (hout : |(v : Int) - 512| > 128) :
    ISR s v = { s with waiting_midpoint_timer := MIDPOINT_WAIT_TIME } := by
  have hb := (band_test v hv).2 hout
  unfold ISR
  simp [hmode, OPERATING_MODE_INTIALISING, OPERATING_MODE_WAITING_MIDPOINT, hb]

theorem ISR_waiting_dec (s : State) (v : Nat)
    (hmode : s.operating_mode = OPERATING_MODE_WAITING_MIDPOINT)
    (hin : |(v : Int) - 512| ≤ 128) :
    (ISR s v).waiting_midpoint_timer = toUInt16 ((s.waiting_midpoint_timer : Int) - 1) := by
  have hb := in_band_test hin
  unfold ISR
  simp [hmode, OPERATING_MODE_INTIALISING, OPERATING_MODE_WAITING_MIDPOINT, hb]
  split_ifs <;> rfl

theorem ISR_waiting_step (s : State) (v : Nat)
    (hmode : s.operating_mode = OPERATING_MODE_WAITING_MIDPOINT)
    (ht : 2 ≤ s.waiting_midpoint_timer) (ht16 : s.waiting_midpoint_timer ≤ 65535)
    (hin : |(v : Int) - 512| ≤ 128) :
    ISR s v = { s with waiting_midpoint_timer := s.waiting_midpoint_timer - 1 } := by
  have hb := in_band_test hin
  have e1 : toUInt16 ((s.waiting_midpoint_timer : Int) - 1) = s.waiting_midpoint_timer - 1 := by
    unfold toUInt16; omega
  have e2 : s.waiting_midpoint_timer - 1 ≠ 0 := by omega
  unfold ISR
  simp [hmode, OPERATING_MODE_INTIALISING, OPERATING_MODE_WAITING_MIDPOINT, hb, e1, e2]

theorem ISR_waiting_last (s : State) (v : Nat)
    (hmode : s.operating_mode = OPERATING_MODE_WAITING_MIDPOINT)
    (ht : s.waiting_midpoint_timer = 1) (hin : |(v : Int) - 512| ≤ 128) :
    ISR s v = { s with waiting_midpoint_timer := 0
                       midpoint := 0
                       midpoint_samples_pending := MIDPOINT_SAMPLE_COUNT
                       operating_mode := OPERATING_MODE_FINDING_MIDPOINT } := by
  have hb := in_band_test hin
  have e1 : toUInt16 ((s.waiting_midpoint_timer : Int) - 1) = 0 := by rw [ht]; decide
  unfold ISR
  simp [hmode, OPERATING_MODE_INTIALISING, OPERATING_MODE_WAITING_MIDPOINT, hb, e1]

theorem run_waiting (vs : List Nat) : ∀ (s : State),
    s.operating_mode = OPERATING_MODE_WAITING_MIDPOINT →
    vs.length < s.waiting_midpoint_timer → s.waiting_midpoint_timer ≤ 65535 →
    (∀ v ∈ vs, |(v : Int) - 512| ≤ 128) →
    run s vs = { s with waiting_midpoint_timer := s.waiting_midpoint_timer - vs.length } := by
  induction vs with
  | nil => intro s _ _ _ _; simp [run_nil]
  | cons a t ih =>
    intro s hmode hlen ht16 hv
    simp only [List.length_cons] at hlen
    have ha := hv a (List.mem_cons_self a t)
    rw [run_cons, ISR_waiting_step s a hmode (by omega) ht16 ha]
    rw [ih { s with waiting_midpoint_timer := s.waiting_midpoint_timer - 1 }
      hmode (by show t.length < s.waiting_midpoint_timer - 1; omega)
      (by show s.waiting_midpoint_timer - 1 ≤ 65535; omega)
      (fun v hvt => hv v (List.mem_cons_of_mem a hvt))]
    simp only [List.length_cons, State.mk.injEq, true_and, and_true]
    omega

/-- C8: from any WaitingMidpoint state whose 16-bit settle timer holds `D ≥ 1`, feeding
`D` consecutive in-band samples (`|v - 512| ≤ 128`) keeps the phase at WaitingMidpoint
after each of the first `D - 1` samples and moves it to FindingMidpoint on the `D`-th
sample, with the midpoint accumulator 0 and the pending-sample counter 64. -/
theorem settle_run (s : State) (vs : List Nat)
    (hmode : s.operating_mode = OPERATING_MODE_WAITING_MIDPOINT)
    (hD : 1 ≤ s.waiting_midpoint_timer) (hD16 : s.waiting_midpoint_timer ≤ 65535)
    (hlen : vs.length = s.waiting_midpoint_timer)
    (hv : ∀ v ∈ vs, |(v : Int) - 512| ≤ 128) :
    (∀ k, k < s.waiting_midpoint_timer →
        (run s (vs.take k)).operating_mode = OPERATING_MODE_WAITING_MIDPOINT) ∧
      (run s vs).operating_mode = OPERATING_MODE_FINDING_MIDPOINT ∧
      (run s vs).midpoint = 0 ∧
      (run s vs).midpoint_samples_pending = 64 := by
  have hpre : ∀ k, k < s.waiting_midpoint_timer →
      run s (vs.take k) = { s with waiting_midpoint_timer := s.waiting_midpoint_timer - k } := by
    intro k hk
    have hlk : (vs.take k).length = k := by rw [List.length_take]; omega
    rw [run_waiting (vs.take k) s hmode (by omega) hD16
      (fun v hm => hv v (List.mem_of_mem_take hm)), hlk]
  obtain ⟨x, hx⟩ : ∃ x, vs.drop (s.waiting_midpoint_timer - 1) = [x] := by
    have hl : (vs.drop (s.waiting_midpoint_timer - 1)).length = 1 := by
      rw [List.length_drop]; omega
    match hd : vs.drop (s.waiting_midpoint_timer - 1), hl with
    | [x], _ => exact ⟨x, rfl⟩
  have hsplit : vs = vs.take (s.waiting_midpoint_timer - 1) ++ [x] := by
    rw [← hx]; exact (List.take_append_drop _ vs).symm
  have hxm : |(x : Int) - 512| ≤ 128 := hv x (by rw [hsplit]; simp)
  have hrun : run s vs = ISR (run s (vs.take (s.waiting_midpoint_timer - 1))) x := by
    conv_lhs => rw [hsplit]
    rw [run_append]; rfl
  have hfin : run s vs = { s with waiting_midpoint_timer := 0
                                  midpoint := 0
                                  midpoint_samples_pending := MIDPOINT_SAMPLE_COUNT
                                  operating_mode := OPERATING_MODE_FINDING_MIDPOINT } := by
    rw [hrun, hpre _ (by omega),
      ISR_waiting_last
        { s with waiting_midpoint_timer :=
            s.waiting_midpoint_timer - (s.waiting_midpoint_timer - 1) }
        x hmode (by show s.waiting_midpoint_timer - (s.waiting_midpoint_timer - 1) = 1; omega) hxm]
  refine ⟨fun k hk => ?_, ?_, ?_, ?_⟩
  · rw [hpre k hk]; exact hmode
  · rw [hfin]
  · rw [hfin]
  · rw [hfin]; rfl

/-- C8 with the timer at 3 and the in-band samples 384, 512, 640: the phase is still
WaitingMidpoint after two samples and FindingMidpoint after the third. -/
theorem settle_run_witness :
    (run ⟨OPERATING_MODE_WAITING_MIDPOINT, 1, 7, 9, 3, 1, 512⟩
        ([384, 512, 640].take 2)).operating_mode = OPERATING_MODE_WAITING_MIDPOINT ∧
      (run ⟨OPERATING_MODE_WAITING_MIDPOINT, 1, 7, 9, 3, 1, 512⟩
        [384, 512, 640]).operating_mode = OPERATING_MODE_FINDING_MIDPOINT ∧
      (run ⟨OPERATING_MODE_WAITING_MIDPOINT, 1, 7, 9, 3, 1, 512⟩ [384, 512, 640]).midpoint = 0 ∧
      (run ⟨OPERATING_MODE_WAITING_MIDPOINT, 1, 7, 9, 3, 1, 512⟩
        [384, 512, 640]).midpoint_samples_pending = 64 :=
  ⟨(settle_run ⟨OPERATING_MODE_WAITING_MIDPOINT, 1, 7, 9, 3, 1, 512⟩ [384, 512, 640] rfl
      (by decide) (by decide) rfl (by decide)).1 2 (by decide),
    (settle_run ⟨OPERATING_MODE_WAITING_MIDPOINT, 1, 7, 9, 3, 1, 512⟩ [384, 512, 640] rfl
      (by decide) (by decide) rfl (by decide)).2⟩

/-- C9: in WaitingMidpoint, every sample in 0..1023 with `|v - 512| > 128` sets the settle
timer to the full duration 20000 whatever it held, and changes nothing else (the phase
stays WaitingMidpoint); a sample with `|v - 512| ≤ 128` does not reset the timer: the
timer is decremented, and from a value in 1..20000 it ends strictly below 20000. -/
theorem settle_reset (s : State) (v : Nat)
    (hmode : s.operating_mode = OPERATING_MODE_WAITING_MIDPOINT) (hv : v ≤ 1023) :
    (|(v : Int) - 512| > 128 →
        ISR s v = { s with waiting_midpoint_timer := 20000 } ∧
        (ISR s v).operating_mode = OPERATING_MODE_WAITING_MIDPOINT) ∧
      (|(v : Int) - 512| ≤ 128 →
        (ISR s v).waiting_midpoint_timer = toUInt16 ((s.waiting_midpoint_timer : Int) - 1) ∧
        (1 ≤ s.waiting_midpoint_timer → s.waiting_midpoint_timer ≤ 20000 →
          (ISR s v).waiting_midpoint_timer = s.waiting_midpoint_timer - 1 ∧
          (ISR s v).waiting_midpoint_timer < MIDPOINT_WAIT_TIME)) := by
  refine ⟨fun hout => ?_, fun hin => ?_⟩
  · rw [ISR_waiting_reset s v hmode hv hout]
    exact ⟨rfl, hmode⟩
  · have h := ISR_waiting_dec s v hmode hin
    refine ⟨h, fun h1 h2 => ?_⟩
    rw [h]
    unfold toUInt16 MIDPOINT_WAIT_TIME
    omega

/-- C9 at the band edges: 383 and 641 reset a timer holding 5 to 20000, 384 and 640
decrement it to 4. -/
theorem settle_reset_witness :
    (ISR ⟨OPERATING_MODE_WAITING_MIDPOINT, 1, 7, 9, 5, 1, 512⟩ 383
        = ⟨OPERATING_MODE_WAITING_MIDPOINT, 1, 7, 9, 20000, 1, 512⟩ ∧
      (ISR ⟨OPERATING_MODE_WAITING_MIDPOINT, 1, 7, 9, 5, 1, 512⟩ 641).waiting_midpoint_timer
        = 20000) ∧
      (ISR ⟨OPERATING_MODE_WAITING_MIDPOINT, 1, 7, 9, 5, 1, 512⟩ 384).waiting_midpoint_timer = 4 ∧
      (ISR ⟨OPERATING_MODE_WAITING_MIDPOINT, 1, 7, 9, 5, 1, 512⟩ 640).waiting_midpoint_timer = 4 :=
  ⟨⟨((settle_reset ⟨OPERATING_MODE_WAITING_MIDPOINT, 1, 7, 9, 5, 1, 512⟩ 383 rfl
        (by decide)).1 (by decide)).1,
      by decide⟩,
    (((settle_reset ⟨OPERATING_MODE_WAITING_MIDPOINT, 1, 7, 9, 5, 1, 512⟩ 384 rfl
        (by decide)).2 (by decide)).2 (by decide) (by decide)).1,
    by decide⟩

/-- C10: for every first sample below 256 processed in Initialising and every prior
content of the persisted byte, after the step the correction flag is 1, the persisted
byte is 1, the phase is WaitingMidpoint and the settle timer is the full 20000. -/
theorem bootstrap_extreme_left (s : State) (v : Nat)
    (hmode : s.operating_mode = OPERATING_MODE_INTIALISING) (hv : v < 256) :
    (ISR s v).correcting = 1 ∧ (ISR s v).eeprom = 1 ∧
      (ISR s v).operating_mode = OPERATING_MODE_WAITING_MIDPOINT ∧
      (ISR s v).waiting_midpoint_timer = 20000 := by
  have hlt : toInt16 (v : Int) < 256 := by rw [toInt16_sample (by omega)]; omega
  unfold ISR
  simp [hmode, hlt, MIDPOINT_WAIT_TIME]

/-- C10 at power-on with the persisted byte holding 0 and first sample 255. -/
theorem bootstrap_extreme_left_witness :
    (ISR (power_on 0) 255).correcting = 1 ∧ (ISR (power_on 0) 255).eeprom = 1 ∧
      (ISR (power_on 0) 255).operating_mode = OPERATING_MODE_WAITING_MIDPOINT ∧
      (ISR (power_on 0) 255).waiting_midpoint_timer = 20000 :=
  bootstrap_extreme_left (power_on 0) 255 rfl (by decide)

theorem ISR_initialising (s : State) (v : Nat)
    (hmode : s.operating_mode = OPERATING_MODE_INTIALISING) :
    ISR s v =
      if toInt16 (v : Int) < 256 then
        { s with operating_mode := OPERATING_MODE_WAITING_MIDPOINT
                 waiting_midpoint_timer := MIDPOINT_WAIT_TIME
                 correcting := 1
                 eeprom := 1 }
      else if toInt16 (v : Int) ≥ 768 then
        { s with operating_mode := OPERATING_MODE_WAITING_MIDPOINT
                 waiting_midpoint_timer := MIDPOINT_WAIT_TIME
                 correcting := 0
                 eeprom := 0 }
      else
        { s with operating_mode := OPERATING_MODE_WAITING_MIDPOINT
                 waiting_midpoint_timer := MIDPOINT_WAIT_TIME / 2
                 correcting := if s.eeprom ≠ 0 then 1 else 0
                 eeprom := if s.eeprom ≠ 0 then 1 else 0 } := by
  unfold ISR
  rw [if_pos hmode]
  dsimp only
  by_cases h1 : toInt16 (v : Int) < 256
  · rw [if_pos h1, if_pos h1]
  · rw [if_neg h1, if_neg h1]
    by_cases h2 : toInt16 (v : Int) ≥ 768
    · rw [if_pos h2, if_pos h2]
    · rw [if_neg h2, if_neg h2]

theorem ISR_waiting (s : State) (v : Nat)
    (hmode : s.operating_mode = OPERATING_MODE_WAITING_MIDPOINT) :
    ISR s v =
      if c_abs (toInt16 (toInt16 (v : Int) - 512)) > MIDPOINT_WAIT_DEAD_ZONE then
        { s with waiting_midpoint_timer := MIDPOINT_WAIT_TIME }
      else if toUInt16 ((s.waiting_midpoint_timer : Int) - 1) = 0 then
        { s with waiting_midpoint_timer := toUInt16 ((s.waiting_midpoint_timer : Int) - 1)
                 midpoint := 0
                 midpoint_samples_pending := MIDPOINT_SAMPLE_COUNT
                 operating_mode := OPERATING_MODE_FINDING_MIDPOINT }
      else
        { s with waiting_midpoint_timer := toUInt16 ((s.waiting_midpoint_timer : Int) - 1) } := by
  unfold ISR
  rw [if_neg (by rw [hmode]; decide), if_pos hmode]

theorem ISR_finding (s : State) (v : Nat)
    (hmode : s.operating_mode = OPERATING_MODE_FINDING_MIDPOINT) :
    ISR s v =
      if toUInt8 ((s.midpoint_samples_pending : Int) - 1) = 0 then
        { s with midpoint := toUInt16 ((s.midpoint : Int) + toInt16 (v : Int)) / MIDPOINT_SAMPLE_COUNT
                 midpoint_samples_pending := toUInt8 ((s.midpoint_samples_pending : Int) - 1)
                 operating_mode := OPERATING_MODE_WORKING }
      else
        { s with midpoint := toUInt16 ((s.midpoint : Int) + toInt16 (v : Int))
                 midpoint_samples_pending := toUInt8 ((s.midpoint_samples_pending : Int) - 1) } := by
  unfold ISR
  rw [if_neg (by rw [hmode]; decide), if_neg (by rw [hmode]; decide), if_pos hmode]

theorem ISR_phase_step (s : State) (v : Nat) (h : s.operating_mode ≤ 3) :
    ((ISR s v).operating_mode = s.operating_mode ∨
        (ISR s v).operating_mode = s.operating_mode + 1) ∧
      (ISR s v).operating_mode ≤ 3 := by
  have hc : s.operating_mode = OPERATING_MODE_INTIALISING ∨
      s.operating_mode = OPERATING_MODE_WAITING_MIDPOINT ∨
      s.operating_mode = OPERATING_MODE_FINDING_MIDPOINT ∨
      s.operating_mode = OPERATING_MODE_WORKING := by
    unfold OPERATING_MODE_INTIALISING OPERATING_MODE_WAITING_MIDPOINT
      OPERATING_MODE_FINDING_MIDPOINT OPERATING_MODE_WORKING
    omega
  rcases hc with hm | hm | hm | hm
  · rw [ISR_initialising s v hm, hm]
    split_ifs <;> exact ⟨Or.inr rfl, by dsimp only; decide⟩
  · rw [ISR_waiting s v hm, hm]
    split_ifs
    · exact ⟨Or.inl rfl, by dsimp only; decide⟩
    · exact ⟨Or.inr rfl, by dsimp only; decide⟩
    · exact ⟨Or.inl rfl, by dsimp only; decide⟩
  · rw [ISR_finding s v hm, hm]
    split_ifs
    · exact ⟨Or.inr rfl, by dsimp only; decide⟩
    · exact ⟨Or.inl rfl, by dsimp only; decide⟩
  · rw [ISR_working s v hm, hm]
    exact ⟨Or.inl rfl, by decide⟩

theorem run_phase (vs : List Nat) : ∀ (s : State), s.operating_mode ≤ 3 →
    (run s vs).operating_mode ≤ 3 ∧ s.operating_mode ≤ (run s vs).operating_mode := by
  induction vs with
  | nil => intro s h; exact ⟨h, le_refl _⟩
  | cons a t ih =>
    intro s h
    have hs := ISR_phase_step s a h
    have ht := ih (ISR s a) hs.2
    rw [run_cons]
    refine ⟨ht.1, ?_⟩
    omega

/-- C11: for every first sample in 768..1023 processed in Initialising and every prior
content of the persisted byte, after the step the correction flag is 0, the persisted
byte is 0, the phase is WaitingMidpoint and the settle timer is the full 20000. -/
theorem bootstrap_extreme_right (s : State) (v : Nat)
    (hmode : s.operating_mode = OPERATING_MODE_INTIALISING) (hlo : 768 ≤ v) (hhi : v ≤ 1023) :
    (ISR s v).correcting = 0 ∧ (ISR s v).eeprom = 0 ∧
      (ISR s v).operating_mode = OPERATING_MODE_WAITING_MIDPOINT ∧
      (ISR s v).waiting_midpoint_timer = 20000 := by
  have h1 : ¬ toInt16 (v : Int) < 256 := by rw [toInt16_sample hhi]; omega
  have h2 : toInt16 (v : Int) ≥ 768 := by rw [toInt16_sample hhi]; omega
  rw [ISR_initialising s v hmode, if_neg h1, if_pos h2]
  exact ⟨rfl, rfl, rfl, rfl⟩

/-- C11 at power-on with the persisted byte holding 1 and first sample 768. -/
theorem bootstrap_extreme_right_witness :
    (ISR (power_on 1) 768).correcting = 0 ∧ (ISR (power_on 1) 768).eeprom = 0 ∧
      (ISR (power_on 1) 768).operating_mode = OPERATING_MODE_WAITING_MIDPOINT ∧
      (ISR (power_on 1) 768).waiting_midpoint_timer = 20000 :=
  bootstrap_extreme_right (power_on 1) 768 rfl (by decide) (by decide)

/-- C12: for every first sample in the middle band 256..767 processed in Initialising and
every persisted byte `b`, after the step the correction flag is 1 if `b ≠ 0` and 0
otherwise, the persisted byte equals that flag, the phase is WaitingMidpoint and the
settle timer is 10000, half of the standard 20000. -/
theorem bootstrap_untouched (s : State) (v : Nat)
    (hmode : s.operating_mode = OPERATING_MODE_INTIALISING) (hlo : 256 ≤ v) (hhi : v ≤ 767) :
    (ISR s v).correcting = (if s.eeprom ≠ 0 then 1 else 0) ∧
      (ISR s v).eeprom = (ISR s v).correcting ∧
      (ISR s v).operating_mode = OPERATING_MODE_WAITING_MIDPOINT ∧
      (ISR s v).waiting_midpoint_timer = 10000 ∧
      (ISR s v).waiting_midpoint_timer = MIDPOINT_WAIT_TIME / 2 := by
  have h1 : ¬ toInt16 (v : Int) < 256 := by rw [toInt16_sample (by omega)]; omega
  have h2 : ¬ toInt16 (v : Int) ≥ 768 := by rw [toInt16_sample (by omega)]; omega
  rw [ISR_initialising s v hmode, if_neg h1, if_neg h2]
  exact ⟨rfl, rfl, rfl, rfl, rfl⟩

/-- C12 at power-on with first sample 512: a persisted byte 255 gives flag 1 and persisted
byte 1, a persisted byte 0 gives flag 0, and the timer starts at 10000. -/
theorem bootstrap_untouched_witness :
    (ISR (power_on 255) 512).correcting = (if (power_on 255).eeprom ≠ 0 then 1 else 0) ∧
      (ISR (power_on 255) 512).eeprom = 1 ∧
      (ISR (power_on 0) 512).correcting = 0 ∧
      (ISR (power_on 0) 512).waiting_midpoint_timer = 10000 :=
  ⟨(bootstrap_untouched (power_on 255) 512 rfl (by decide) (by decide)).1,
    by decide,
    by decide,
    (bootstrap_untouched (power_on 0) 512 rfl (by decide) (by decide)).2.2.2.1⟩

/-- C13: in every state reached from power-on by any sequence of samples the phase is one
of the four declared phases (so the default branch, which runs only for any other value,
is not taken), and the next step either leaves the phase unchanged or advances it by
exactly one position in the order Initialising, WaitingMidpoint, FindingMidpoint,
Working; it never moves to an earlier phase. -/
theorem phase_order_invariant (b : Nat) (vs : List Nat) (v : Nat) :
    ((run (power_on b) vs).operating_mode = OPERATING_MODE_INTIALISING ∨
        (run (power_on b) vs).operating_mode = OPERATING_MODE_WAITING_MIDPOINT ∨
        (run (power_on b) vs).operating_mode = OPERATING_MODE_FINDING_MIDPOINT ∨
        (run (power_on b) vs).operating_mode = OPERATING_MODE_WORKING) ∧
      ((ISR (run (power_on b) vs) v).operating_mode = (run (power_on b) vs).operating_mode ∨
        (ISR (run (power_on b) vs) v).operating_mode
          = (run (power_on b) vs).operating_mode + 1) ∧
      (run (power_on b) vs).operating_mode ≤ (ISR (run (power_on b) vs) v).operating_mode ∧
      (ISR (run (power_on b) vs) v).operating_mode ≤ OPERATING_MODE_WORKING := by
  have h0 : (power_on b).operating_mode ≤ 3 := Nat.zero_le 3
  have h := (run_phase vs (power_on b) h0).1
  have hs := ISR_phase_step (run (power_on b) vs) v h
  unfold OPERATING_MODE_INTIALISING OPERATING_MODE_WAITING_MIDPOINT
    OPERATING_MODE_FINDING_MIDPOINT OPERATING_MODE_WORKING
  omega

theorem ISR_frame_correcting (s : State) (w : Nat)
    (h : s.operating_mode = OPERATING_MODE_WAITING_MIDPOINT ∨
      s.operating_mode = OPERATING_MODE_FINDING_MIDPOINT ∨
      s.operating_mode = OPERATING_MODE_WORKING) :
    (ISR s w).correcting = s.correcting ∧ (ISR s w).eeprom = s.eeprom := by
  rcases h with hm | hm | hm
  · rw [ISR_waiting s w hm]
    split_ifs <;> exact ⟨rfl, rfl⟩
  · rw [ISR_finding s w hm]
    split_ifs <;> exact ⟨rfl, rfl⟩
  · rw [ISR_working s w hm]
    exact ⟨rfl, rfl⟩

theorem run_frame_correcting (vs : List Nat) : ∀ (s : State),
    1 ≤ s.operating_mode → s.operating_mode ≤ 3 →
    (run s vs).correcting = s.correcting ∧ (run s vs).eeprom = s.eeprom ∧
      1 ≤ (run s vs).operating_mode ∧ (run s vs).operating_mode ≤ 3 := by
  induction vs with
  | nil => intro s h1 h3; exact ⟨rfl, rfl, h1, h3⟩
  | cons a t ih =>
    intro s h1 h3
    have hp := ISR_phase_step s a h3
    have hf := ISR_frame_correcting s a (by
      unfold OPERATING_MODE_WAITING_MIDPOINT OPERATING_MODE_FINDING_MIDPOINT
        OPERATING_MODE_WORKING
      omega)
    have ht := ih (ISR s a) (by omega) hp.2
    rw [run_cons, ht.1, ht.2.1]
    exact ⟨hf.1, hf.2, ht.2.2⟩

/-- C14: for every state whose phase is Working and every sample, the step leaves the
phase at Working and the midpoint, the correction flag, the settle timer, the
pending-sample counter and the persisted byte unchanged; the state after the step is the
state before it with only the output register replaced. -/
theorem working_is_terminal (s : State) (v : Nat)
    (hmode : s.operating_mode = OPERATING_MODE_WORKING) :
    (ISR s v).operating_mode = OPERATING_MODE_WORKING ∧
      (ISR s v).midpoint = s.midpoint ∧
      (ISR s v).correcting = s.correcting ∧
      (ISR s v).waiting_midpoint_timer = s.waiting_midpoint_timer ∧
      (ISR s v).midpoint_samples_pending = s.midpoint_samples_pending ∧
      (ISR s v).eeprom = s.eeprom ∧
      ISR s v = { s with OCR1A := (ISR s v).OCR1A } := by
  rw [ISR_working s v hmode]
  exact ⟨hmode, rfl, rfl, rfl, rfl, rfl, rfl⟩

/-- C14 on a Working state with midpoint 500 and sample 900: only the register changes,
from 512 to 868. -/
theorem working_is_terminal_witness :
    ISR ⟨OPERATING_MODE_WORKING, 1, 500, 0, 0, 1, 512⟩ 900
      = ⟨OPERATING_MODE_WORKING, 1, 500, 0, 0, 1, 868⟩ :=
  ((working_is_terminal ⟨OPERATING_MODE_WORKING, 1, 500, 0, 0, 1, 512⟩ 900 rfl).2.2.2.2.2.2).trans
    (by decide)

/-- C15: a step taken in WaitingMidpoint, FindingMidpoint or Working leaves the correction
flag and the persisted byte unchanged; along any run from power-on, after the first
sample the phase is never Initialising again (so the one branch that writes the persisted
byte runs once), and both the persisted byte and the correction flag equal the flag
decided by the first step. -/
theorem correction_decided_once (s : State) (w : Nat) (b v : Nat) (vs : List Nat) :
    ((s.operating_mode = OPERATING_MODE_WAITING_MIDPOINT ∨
        s.operating_mode = OPERATING_MODE_FINDING_MIDPOINT ∨
        s.operating_mode = OPERATING_MODE_WORKING) →
        (ISR s w).correcting = s.correcting ∧ (ISR s w).eeprom = s.eeprom) ∧
      (run (power_on b) (v :: vs)).operating_mode ≠ OPERATING_MODE_INTIALISING ∧
      (run (power_on b) (v :: vs)).eeprom = (ISR (power_on b) v).correcting ∧
      (run (power_on b) (v :: vs)).correcting = (ISR (power_on b) v).correcting ∧
      (ISR (power_on b) v).eeprom = (ISR (power_on b) v).correcting := by
  have hinit : (power_on b).operating_mode = OPERATING_MODE_INTIALISING := rfl
  have h1 : (ISR (power_on b) v).operating_mode = 1 ∧
      (ISR (power_on b) v).eeprom = (ISR (power_on b) v).correcting := by
    rw [ISR_initialising _ v hinit]
    split_ifs <;> exact ⟨rfl, rfl⟩
  have hr := run_frame_correcting vs (ISR (power_on b) v) (by omega) (by omega)
  refine ⟨ISR_frame_correcting s w, ?_, ?_, ?_, h1.2⟩
  · rw [run_cons]
    unfold OPERATING_MODE_INTIALISING
    omega
  · rw [run_cons, hr.2.1, h1.2]
  · rw [run_cons, hr.1]

/-- C15 on the run 100, 900, 512 from power-on with the persisted byte 0: the first step
decides flag 1 and writes it, and the byte and the flag are still 1 afterwards. -/
theorem correction_decided_once_witness :
    (ISR ⟨OPERATING_MODE_WAITING_MIDPOINT, 1, 0, 64, 5, 1, 512⟩ 900).eeprom = 1 ∧
      (run (power_on 0) [100, 900, 512]).eeprom = (ISR (power_on 0) 100).correcting ∧
      (ISR (power_on 0) 100).correcting = 1 :=
  ⟨((correction_decided_once ⟨OPERATING_MODE_WAITING_MIDPOINT, 1, 0, 64, 5, 1, 512⟩ 900
      0 100 [900, 512]).1 (Or.inl rfl)).2,
    (correction_decided_once ⟨OPERATING_MODE_WAITING_MIDPOINT, 1, 0, 64, 5, 1, 512⟩ 900
      0 100 [900, 512]).2.2.1,
    by decide⟩

theorem calibration_ranges_power_on (b : Nat) : calibration_ranges (power_on b) := by
  unfold calibration_ranges power_on OPERATING_MODE_INTIALISING OPERATING_MODE_WAITING_MIDPOINT
    OPERATING_MODE_FINDING_MIDPOINT OPERATING_MODE_WORKING
  simp

theorem calibration_ranges_step (s : State) (v : Nat) (hv : v ≤ 1023)
    (h : calibration_ranges s) : calibration_ranges (ISR s v) := by
  obtain ⟨h3, hi, hw, hf, hk⟩ := h
  have hc : s.operating_mode = OPERATING_MODE_INTIALISING ∨
      s.operating_mode = OPERATING_MODE_WAITING_MIDPOINT ∨
      s.operating_mode = OPERATING_MODE_FINDING_MIDPOINT ∨
      s.operating_mode = OPERATING_MODE_WORKING := by
    unfold OPERATING_MODE_INTIALISING OPERATING_MODE_WAITING_MIDPOINT
      OPERATING_MODE_FINDING_MIDPOINT OPERATING_MODE_WORKING
    omega
  rcases hc with hm | hm | hm | hm
  · have h0 := hi hm
    rw [ISR_initialising s v hm]
    unfold calibration_ranges OPERATING_MODE_INTIALISING OPERATING_MODE_WAITING_MIDPOINT
      OPERATING_MODE_FINDING_MIDPOINT OPERATING_MODE_WORKING MIDPOINT_WAIT_TIME
      MIDPOINT_SAMPLE_COUNT
    split_ifs <;> simp [h0]
  · obtain ⟨h0, h1, h2⟩ := hw hm
    unfold MIDPOINT_WAIT_TIME at h2
    have e : toUInt16 ((s.waiting_midpoint_timer : Int) - 1) = s.waiting_midpoint_timer - 1 := by
      unfold toUInt16; omega
    rw [ISR_waiting s v hm, e]
    unfold calibration_ranges
    rw [hm]
    unfold OPERATING_MODE_INTIALISING OPERATING_MODE_WAITING_MIDPOINT
      OPERATING_MODE_FINDING_MIDPOINT OPERATING_MODE_WORKING MIDPOINT_WAIT_TIME
      MIDPOINT_SAMPLE_COUNT
    split_ifs <;> simp [h0]
    omega
  · obtain ⟨h1, h2, h4⟩ := hf hm
    unfold MIDPOINT_SAMPLE_COUNT at h2 h4
    have e1 : toUInt16 ((s.midpoint : Int) + toInt16 (v : Int)) = s.midpoint + v := by
      rw [toInt16_sample hv]; unfold toUInt16; omega
    have e2 : toUInt8 ((s.midpoint_samples_pending : Int) - 1)
        = s.midpoint_samples_pending - 1 := by
      unfold toUInt8; omega
    rw [ISR_finding s v hm, e1, e2]
    unfold calibration_ranges
    rw [hm]
    unfold OPERATING_MODE_INTIALISING OPERATING_MODE_WAITING_MIDPOINT
      OPERATING_MODE_FINDING_MIDPOINT OPERATING_MODE_WORKING MIDPOINT_WAIT_TIME
      MIDPOINT_SAMPLE_COUNT
    split_ifs <;> simp <;> omega
  · have h0 := hk hm
    rw [ISR_working s v hm]
    unfold calibration_ranges
    rw [hm]
    unfold OPERATING_MODE_INTIALISING OPERATING_MODE_WAITING_MIDPOINT
      OPERATING_MODE_FINDING_MIDPOINT OPERATING_MODE_WORKING
    simp [h0]

theorem calibration_ranges_run (vs : List Nat) : ∀ (s : State),
    (∀ v ∈ vs, v ≤ 1023) → calibration_ranges s → calibration_ranges (run s vs) := by
  induction vs with
  | nil => intro s _ h; exact h
  | cons a t ih =>
    intro s hv h
    rw [run_cons]
    exact ih (ISR s a) (fun v hvt => hv v (List.mem_cons_of_mem a hvt))
      (calibration_ranges_step s a (hv a (List.mem_cons_self a t)) h)

theorem run_settle (s : State) (vs : List Nat)
    (hmode : s.operating_mode = OPERATING_MODE_WAITING_MIDPOINT)
    (hD : 1 ≤ s.waiting_midpoint_timer) (hD16 : s.waiting_midpoint_timer ≤ 65535)
    (hlen : vs.length = s.waiting_midpoint_timer)
    (hv : ∀ v ∈ vs, |(v : Int) - 512| ≤ 128) :
    run s vs = { s with waiting_midpoint_timer := 0
                        midpoint := 0
                        midpoint_samples_pending := MIDPOINT_SAMPLE_COUNT
                        operating_mode := OPERATING_MODE_FINDING_MIDPOINT } := by
  obtain ⟨x, hx⟩ : ∃ x, vs.drop (s.waiting_midpoint_timer - 1) = [x] := by
    have hl : (vs.drop (s.waiting_midpoint_timer - 1)).length = 1 := by
      rw [List.length_drop]; omega
    match hd : vs.drop (s.waiting_midpoint_timer - 1), hl with
    | [x], _ => exact ⟨x, rfl⟩
  have hsplit : vs = vs.take (s.waiting_midpoint_timer - 1) ++ [x] := by
    rw [← hx]; exact (List.take_append_drop _ vs).symm
  have hxm : |(x : Int) - 512| ≤ 128 := hv x (by rw [hsplit]; simp)
  have hlk : (vs.take (s.waiting_midpoint_timer - 1)).length = s.waiting_midpoint_timer - 1 := by
    rw [List.length_take]; omega
  have hpre := run_waiting (vs.take (s.waiting_midpoint_timer - 1)) s hmode (by omega) hD16
    (fun v hm => hv v (List.mem_of_mem_take hm))
  rw [hlk] at hpre
  have hrun : run s vs = ISR (run s (vs.take (s.waiting_midpoint_timer - 1))) x := by
    conv_lhs => rw [hsplit]
    rw [run_append]; rfl
  rw [hrun, hpre,
    ISR_waiting_last
      { s with waiting_midpoint_timer :=
          s.waiting_midpoint_timer - (s.waiting_midpoint_timer - 1) }
      x hmode (by show s.waiting_midpoint_timer - (s.waiting_midpoint_timer - 1) = 1; omega) hxm]

/-- C16, as the claim states it, fails: from power-on the middle-band sample 512 starts
the settle timer at the shortened 10000, and the out-of-band sample 700 that follows sets
it to 20000, not back to 10000. -/
theorem settle_reset_shortened_counterexample :
    (ISR (power_on 0) 512).waiting_midpoint_timer = 10000 ∧
      (run (power_on 0) [512, 700]).operating_mode = OPERATING_MODE_WAITING_MIDPOINT ∧
      (run (power_on 0) [512, 700]).waiting_midpoint_timer = 20000 ∧
      (run (power_on 0) [512, 700]).waiting_midpoint_timer ≠ 10000 := by
  decide

/-- C16, amended: after any bootstrap sample in 0..1023, in the middle band or at an
extreme, and any number of in-band samples that does not yet exhaust the settle timer, an
out-of-band sample in WaitingMidpoint sets the settle timer to the fixed duration 20000;
the shortened duration 10000 is only the value the timer starts from after a middle-band
bootstrap sample. -/
theorem settle_reset_after_bootstrap (s : State) (v0 : Nat) (ws : List Nat) (v : Nat)
    (hmode : s.operating_mode = OPERATING_MODE_INTIALISING) (hv0 : v0 ≤ 1023)
    (hws : ∀ w ∈ ws, |(w : Int) - 512| ≤ 128)
    (hlen : ws.length < (ISR s v0).waiting_midpoint_timer)
    (hv : v ≤ 1023) (hout : |(v : Int) - 512| > 128) :
    (run s (v0 :: (ws ++ [v]))).waiting_midpoint_timer = MIDPOINT_WAIT_TIME ∧
      (run s (v0 :: (ws ++ [v]))).operating_mode = OPERATING_MODE_WAITING_MIDPOINT ∧
      (256 ≤ v0 → v0 ≤ 767 → (ISR s v0).waiting_midpoint_timer = 10000) ∧
      (v0 < 256 ∨ 768 ≤ v0 → (ISR s v0).waiting_midpoint_timer = 20000) := by
  have h1 : (ISR s v0).operating_mode = OPERATING_MODE_WAITING_MIDPOINT ∧
      (ISR s v0).waiting_midpoint_timer ≤ 65535 ∧
      (256 ≤ v0 → v0 ≤ 767 → (ISR s v0).waiting_midpoint_timer = 10000) ∧
      (v0 < 256 ∨ 768 ≤ v0 → (ISR s v0).waiting_midpoint_timer = 20000) := by
    have e := toInt16_sample hv0
    rw [ISR_initialising s v0 hmode, e]
    have ht : MIDPOINT_WAIT_TIME = 20000 := rfl
    have ht2 : MIDPOINT_WAIT_TIME / 2 = 10000 := rfl
    by_cases ha : (v0 : Int) < 256
    · rw [if_pos ha]
      refine ⟨rfl, ?_, ?_, ?_⟩
      · show MIDPOINT_WAIT_TIME ≤ 65535; omega
      · intro _ _; omega
      · intro _; exact ht
    · rw [if_neg ha]
      by_cases hb : (v0 : Int) ≥ 768
      · rw [if_pos hb]
        refine ⟨rfl, ?_, ?_, ?_⟩
        · show MIDPOINT_WAIT_TIME ≤ 65535; omega
        · intro _ _; omega
        · intro _; exact ht
      · rw [if_neg hb]
        refine ⟨rfl, ?_, ?_, ?_⟩
        · show MIDPOINT_WAIT_TIME / 2 ≤ 65535; omega
        · intro _ _; exact ht2
        · intro _; omega
  have hrun : run s (v0 :: (ws ++ [v])) = ISR (run (ISR s v0) ws) v := by
    rw [run_cons, run_append]; rfl
  have hw := run_waiting ws (ISR s v0) h1.1 hlen h1.2.1 hws
  have hr := ISR_waiting_reset (run (ISR s v0) ws) v (by rw [hw]; exact h1.1) hv hout
  rw [hrun, hr]
  refine ⟨rfl, ?_, h1.2.2⟩
  show (run (ISR s v0) ws).operating_mode = OPERATING_MODE_WAITING_MIDPOINT
  rw [hw]; exact h1.1

/-- C16 amended, at power-on with bootstrap sample 512, in-band samples 500 and 520, then
the out-of-band sample 700: the timer is 20000. -/
theorem settle_reset_after_bootstrap_witness :
    (run (power_on 0) (512 :: ([500, 520] ++ [700]))).waiting_midpoint_timer
      = MIDPOINT_WAIT_TIME :=
  (settle_reset_after_bootstrap (power_on 0) 512 [500, 520] 700 rfl (by decide) (by decide)
    (by decide) (by decide) (by decide)).1

theorem run_singleton (s : State) (v : Nat) : run s [v] = ISR s v := rfl

/-- C17, as the claim states it, fails: from power-on with persisted byte 0, the
middle-band sample 512 starts the settle timer at 10000, another 10000 samples of 512
enter FindingMidpoint, and after one more sample 600 the phase is still FindingMidpoint
while the midpoint variable, used as the accumulator, holds 600. -/
theorem midpoint_zero_until_working_counterexample :
    (run (power_on 0) (512 :: (List.replicate 10000 512 ++ [600]))).operating_mode
        = OPERATING_MODE_FINDING_MIDPOINT ∧
      (run (power_on 0) (512 :: (List.replicate 10000 512 ++ [600]))).midpoint = 600 ∧
      (run (power_on 0) (512 :: (List.replicate 10000 512 ++ [600]))).midpoint ≠ 0 := by
  have h1 : ISR (power_on 0) 512 = ⟨OPERATING_MODE_WAITING_MIDPOINT, 0, 0, 64, 10000, 0, 512⟩ := by
    decide
  have h2 := run_settle ⟨OPERATING_MODE_WAITING_MIDPOINT, 0, 0, 64, 10000, 0, 512⟩
    (List.replicate 10000 512) rfl (by decide) (by decide) (List.length_replicate ..)
    (fun v hv => by rw [List.eq_of_mem_replicate hv]; decide)
  have hrun : run (power_on 0) (512 :: (List.replicate 10000 512 ++ [600]))
      = ISR (run (ISR (power_on 0) 512) (List.replicate 10000 512)) 600 := by
    rw [run_cons, run_append, run_singleton]
  rw [hrun, h1, h2]
  decide

/-- C17, amended: in every state reached from power-on on samples in 0..1023 whose phase
is Initialising or WaitingMidpoint the midpoint variable is 0; in FindingMidpoint the
same variable is the accumulator: it is 0 on entry (pending counter 64), at most 1023
per sample taken so far, and a step that stays in FindingMidpoint adds the sample to
it. -/
theorem midpoint_zero_before_finding (b : Nat) (vs : List Nat) (v : Nat)
    (hvs : ∀ x ∈ vs, x ≤ 1023) (hv : v ≤ 1023) :
    (((run (power_on b) vs).operating_mode = OPERATING_MODE_INTIALISING ∨
        (run (power_on b) vs).operating_mode = OPERATING_MODE_WAITING_MIDPOINT) →
        (run (power_on b) vs).midpoint = 0) ∧
      ((run (power_on b) vs).operating_mode = OPERATING_MODE_FINDING_MIDPOINT →
        (run (power_on b) vs).midpoint
          ≤ 1023 * (64 - (run (power_on b) vs).midpoint_samples_pending) ∧
        ((run (power_on b) vs).midpoint_samples_pending = 64 →
          (run (power_on b) vs).midpoint = 0) ∧
        (2 ≤ (run (power_on b) vs).midpoint_samples_pending →
          (ISR (run (power_on b) vs) v).operating_mode = OPERATING_MODE_FINDING_MIDPOINT ∧
          (ISR (run (power_on b) vs) v).midpoint = (run (power_on b) vs).midpoint + v)) := by
  obtain ⟨_, hi, hw, hf, _⟩ :=
    calibration_ranges_run vs (power_on b) hvs (calibration_ranges_power_on b)
  refine ⟨fun h => ?_, fun h => ?_⟩
  · rcases h with h | h
    · exact hi h
    · exact (hw h).1
  · obtain ⟨h1, h2, h4⟩ := hf h
    unfold MIDPOINT_SAMPLE_COUNT at h2 h4
    refine ⟨h4, fun h64 => ?_, fun hp => ?_⟩
    · rw [h64] at h4; omega
    · rw [ISR_finding_step _ v h hp (by omega) hv (by omega)]
      exact ⟨h, rfl⟩

/-- C17 amended, on the run 512, 700 from power-on: the phase is WaitingMidpoint and the
midpoint is 0. -/
theorem midpoint_zero_before_finding_witness :
    (run (power_on 0) [512, 700]).midpoint = 0 :=
  (midpoint_zero_before_finding 0 [512, 700] 0 (by decide) (by decide)).1 (Or.inr (by decide))

theorem correction_dead_band {x : Int} (h1 : -1023 ≤ x) (h2 : x ≤ 1023) :
    (correction x = 0 ↔ -6 ≤ x ∧ x ≤ 6) ∧
      (x = 7 → correction x = 61) ∧ (x = -7 → correction x = -61) := by
  obtain ⟨e, _, _⟩ := correction_eq h1 h2
  rw [e]
  unfold ref_offset ref_scale ref_dead_zone
  simp only [abs_lt, tdiv_eight]
  split_ifs <;> omega

/-- C18: in the Working phase with correction enabled, for every raw sample and midpoint
in 0..1023 the value written to the output register is 512 exactly when
`|r - m| ≤ 6`; the offsets 5 and 6 are swallowed by the truncating scale, and the
smallest offsets that move the output are +7, giving 573, and -7, giving 451. -/
theorem effective_dead_band (s : State) (r : Nat)
    (hmode : s.operating_mode = OPERATING_MODE_WORKING) (hc : s.correcting ≠ 0)
    (hr : r ≤ 1023) (hm : s.midpoint ≤ 1023) :
    ((ISR s r).OCR1A = 512 ↔ |(r : Int) - s.midpoint| ≤ 6) ∧
      ((r : Int) - s.midpoint = 7 → (ISR s r).OCR1A = 573) ∧
      ((r : Int) - s.midpoint = -7 → (ISR s r).OCR1A = 451) := by
  have h := ISR_working_OCR1A s r hmode
  rw [working_value_exact _ _ _ hr hm, if_pos hc] at h
  obtain ⟨hp, hn, _⟩ := correction_cases (x := (r : Int) - s.midpoint) (by omega) (by omega)
  obtain ⟨hz, h7, hm7⟩ :=
    correction_dead_band (x := (r : Int) - s.midpoint) (by omega) (by omega)
  generalize correction ((r : Int) - s.midpoint) = c at h hp hn hz h7 hm7
  generalize (ISR s r).OCR1A = o at h
  unfold clamp_output at h
  simp only [] at h
  rw [abs_le]
  split_ifs at h <;> omega

/-- C18 at midpoint 512: samples 517, 518, 506 give 512; 519 gives 573 and 505 gives
451. -/
theorem effective_dead_band_witness :
    (ISR ⟨OPERATING_MODE_WORKING, 1, 512, 0, 0, 1, 512⟩ 518).OCR1A = 512 ∧
      (ISR ⟨OPERATING_MODE_WORKING, 1, 512, 0, 0, 1, 512⟩ 519).OCR1A = 573 ∧
      (ISR ⟨OPERATING_MODE_WORKING, 1, 512, 0, 0, 1, 512⟩ 505).OCR1A = 451 ∧
      (ISR ⟨OPERATING_MODE_WORKING, 1, 512, 0, 0, 1, 512⟩ 517).OCR1A = 512 ∧
      (ISR ⟨OPERATING_MODE_WORKING, 1, 512, 0, 0, 1, 512⟩ 506).OCR1A = 512 :=
  ⟨(effective_dead_band ⟨OPERATING_MODE_WORKING, 1, 512, 0, 0, 1, 512⟩ 518 rfl (by decide)
      (by decide) (by decide)).1.2 (by decide),
    (effective_dead_band ⟨OPERATING_MODE_WORKING, 1, 512, 0, 0, 1, 512⟩ 519 rfl (by decide)
      (by decide) (by decide)).2.1 (by decide),
    (effective_dead_band ⟨OPERATING_MODE_WORKING, 1, 512, 0, 0, 1, 512⟩ 505 rfl (by decide)
      (by decide) (by decide)).2.2 (by decide),
    by decide, by decide⟩

theorem ref_dead_zone_mono {x y : Int} (h : x ≤ y) : ref_dead_zone x ≤ ref_dead_zone y := by
  unfold ref_dead_zone
  simp only [abs_lt]
  split_ifs <;> omega

theorem ref_scale_mono {x y : Int} (h : x ≤ y) : ref_scale x ≤ ref_scale y := by
  unfold ref_scale
  simp only [tdiv_eight]
  split_ifs <;> omega

theorem ref_offset_mono {x y : Int} (h : x ≤ y) : ref_offset x ≤ ref_offset y := by
  unfold ref_offset
  split_ifs <;> omega

theorem clamp_output_mono {x y : Int} (h : x ≤ y) : clamp_output x ≤ clamp_output y := by
  unfold clamp_output
  simp only []
  split_ifs <;> omega

theorem correction_mono {x y : Int} (hx : -1023 ≤ x) (hy : y ≤ 1023) (h : x ≤ y) :
    correction x ≤ correction y := by
  rw [(correction_eq hx (by omega)).1, (correction_eq (by omega) hy).1]
  exact ref_offset_mono (ref_scale_mono (ref_dead_zone_mono h))

/-- C19: for a fixed Working state (midpoint in 0..1023, either value of the correction
flag) the value written to the output register is a non-decreasing function of the raw
sample: `r1 ≤ r2 ≤ 1023` gives `output(r1) ≤ output(r2)`. -/
theorem working_output_monotone (s : State) (r1 r2 : Nat)
    (hmode : s.operating_mode = OPERATING_MODE_WORKING) (hm : s.midpoint ≤ 1023)
    (h12 : r1 ≤ r2) (hr2 : r2 ≤ 1023) :
    (ISR s r1).OCR1A ≤ (ISR s r2).OCR1A := by
  have h1 := ISR_working_OCR1A s r1 hmode
  have h2 := ISR_working_OCR1A s r2 hmode
  rw [working_value_exact _ _ _ (by omega) hm] at h1
  rw [working_value_exact _ _ _ hr2 hm] at h2
  have hle : (if s.correcting ≠ 0 then correction ((r1 : Int) - s.midpoint)
        else (r1 : Int) - s.midpoint) + 512 ≤
      (if s.correcting ≠ 0 then correction ((r2 : Int) - s.midpoint)
        else (r2 : Int) - s.midpoint) + 512 := by
    split_ifs
    · have := correction_mono (x := (r1 : Int) - s.midpoint) (y := (r2 : Int) - s.midpoint)
        (by omega) (by omega) (by omega)
      omega
    · omega
  have := clamp_output_mono hle
  omega

/-- C19 at midpoint 512 with correction enabled: the output for 518 is at most the
output for 519. -/
theorem working_output_monotone_witness :
    (ISR ⟨OPERATING_MODE_WORKING, 1, 512, 0, 0, 1, 512⟩ 518).OCR1A
      ≤ (ISR ⟨OPERATING_MODE_WORKING, 1, 512, 0, 0, 1, 512⟩ 519).OCR1A :=
  working_output_monotone ⟨OPERATING_MODE_WORKING, 1, 512, 0, 0, 1, 512⟩ 518 519 rfl
    (by decide) (by decide) (by decide)

theorem working_intermediates_range (c m r : Nat) (hr : r ≤ 1023) (hm : m ≤ 1023) :
    ∀ x ∈ working_intermediates c m (toInt16 r), -32768 ≤ x ∧ x ≤ 32767 := by
  unfold working_intermediates
  simp only []
  rw [toInt16_sample hr, centred_eq (by omega) (by omega)]
  have hx1 : -1023 ≤ (r : Int) - m := by omega
  have hx2 : (r : Int) - m ≤ 1023 := by omega
  generalize (r : Int) - m = x at hx1 hx2
  obtain ⟨_, l1, u1⟩ := input_dead_zone_eq hx1 hx2
  obtain ⟨e2, l2, u2⟩ := output_scale_eq l1 u1
  obtain ⟨_, l3, u3⟩ := output_dead_zone_eq l2 u2
  have hs : output_scale (input_dead_zone x)
      = toInt16 (Int.tdiv (toInt16 (input_dead_zone x * OUTPUT_SCALE_MUL)) OUTPUT_SCALE_DIV) := rfl
  rw [← hs]
  have h115 : toInt16 (input_dead_zone x * OUTPUT_SCALE_MUL) = input_dead_zone x * 6 :=
    toInt16_of_range (by unfold OUTPUT_SCALE_MUL; omega) (by unfold OUTPUT_SCALE_MUL; omega)
  have h116 : Int.tdiv (toInt16 (input_dead_zone x * OUTPUT_SCALE_MUL)) OUTPUT_SCALE_DIV
      = output_scale (input_dead_zone x) := by
    rw [hs]
    have hb : -763 ≤ Int.tdiv (input_dead_zone x * 6) 8 ∧
        Int.tdiv (input_dead_zone x * 6) 8 ≤ 763 := by
      rw [tdiv_eight]; split_ifs <;> omega
    rw [h115]
    exact (toInt16_of_range (by unfold OUTPUT_SCALE_DIV; omega)
      (by unfold OUTPUT_SCALE_DIV; omega)).symm
  rw [h116]
  generalize output_dead_zone (output_scale (input_dead_zone x)) = o at l3 u3
  generalize output_scale (input_dead_zone x) = sc at l2 u2
  generalize input_dead_zone x = d at l1 u1
  unfold INPUT_DEAD_ZONE OUTPUT_DEAD_ZONE_OFFSET OUTPUT_SCALE_MUL
  intro y hy
  split_ifs at hy <;> simp only [List.mem_cons, List.mem_singleton, List.not_mem_nil,
    or_false] at hy <;> omega

/-- C20: in every state reached from power-on on samples in 0..1023, and for every next
sample in 0..1023, the 16-bit arithmetic of the handler does not wrap: the sample read
into the `int16_t` local is the sample; the midpoint variable never exceeds
`64 * 1023 = 65472`, also after the addition of a FindingMidpoint step, whose pending
counter is decremented from at least 1; outside FindingMidpoint the midpoint is in
0..1023; the settle timer is decremented from at least 1; and in Working every
intermediate of the transform lies in `-32768..32767`, so the value before the clamp is
the one exact integer arithmetic gives. -/
theorem no_wraparound (b : Nat) (vs : List Nat) (v : Nat)
    (hvs : ∀ x ∈ vs, x ≤ 1023) (hv : v ≤ 1023) :
    toInt16 (v : Int) = v ∧
      (run (power_on b) vs).midpoint ≤ 65472 ∧
      ((run (power_on b) vs).operating_mode = OPERATING_MODE_FINDING_MIDPOINT →
        (run (power_on b) vs).midpoint + v ≤ 65472 ∧
        toUInt16 (((run (power_on b) vs).midpoint : Int) + toInt16 (v : Int))
          = (run (power_on b) vs).midpoint + v ∧
        1 ≤ (run (power_on b) vs).midpoint_samples_pending ∧
        (toUInt8 (((run (power_on b) vs).midpoint_samples_pending : Int) - 1) : Int)
          = ((run (power_on b) vs).midpoint_samples_pending : Int) - 1) ∧
      ((run (power_on b) vs).operating_mode ≠ OPERATING_MODE_FINDING_MIDPOINT →
        (run (power_on b) vs).midpoint ≤ 1023) ∧
      ((run (power_on b) vs).operating_mode = OPERATING_MODE_WAITING_MIDPOINT →
        1 ≤ (run (power_on b) vs).waiting_midpoint_timer ∧
        (toUInt16 (((run (power_on b) vs).waiting_midpoint_timer : Int) - 1) : Int)
          = ((run (power_on b) vs).waiting_midpoint_timer : Int) - 1) ∧
      ((run (power_on b) vs).operating_mode = OPERATING_MODE_WORKING →
        (∀ x ∈ working_intermediates (run (power_on b) vs).correcting
            (run (power_on b) vs).midpoint (toInt16 v), -32768 ≤ x ∧ x ≤ 32767) ∧
        working_value (run (power_on b) vs).correcting (run (power_on b) vs).midpoint
            (toInt16 v)
          = (if (run (power_on b) vs).correcting ≠ 0 then
              ref_offset (ref_scale (ref_dead_zone ((v : Int) - (run (power_on b) vs).midpoint)))
            else (v : Int) - (run (power_on b) vs).midpoint) + 512) := by
  obtain ⟨h3, hi, hw, hf, hk⟩ :=
    calibration_ranges_run vs (power_on b) hvs (calibration_ranges_power_on b)
  generalize run (power_on b) vs = s at h3 hi hw hf hk
  have hc : s.operating_mode = OPERATING_MODE_INTIALISING ∨
      s.operating_mode = OPERATING_MODE_WAITING_MIDPOINT ∨
      s.operating_mode = OPERATING_MODE_FINDING_MIDPOINT ∨
      s.operating_mode = OPERATING_MODE_WORKING := by
    unfold OPERATING_MODE_INTIALISING OPERATING_MODE_WAITING_MIDPOINT
      OPERATING_MODE_FINDING_MIDPOINT OPERATING_MODE_WORKING
    omega
  have hfind : s.operating_mode = OPERATING_MODE_FINDING_MIDPOINT →
      1 ≤ s.midpoint_samples_pending ∧ s.midpoint_samples_pending ≤ 64 ∧
        s.midpoint + v ≤ 65472 := by
    intro h
    obtain ⟨h1, h2, h4⟩ := hf h
    unfold MIDPOINT_SAMPLE_COUNT at h2 h4
    omega
  have hmid : s.operating_mode ≠ OPERATING_MODE_FINDING_MIDPOINT → s.midpoint ≤ 1023 := by
    intro h
    rcases hc with hm | hm | hm | hm
    · have := hi hm; omega
    · have := (hw hm).1; omega
    · exact absurd hm h
    · exact hk hm
  refine ⟨toInt16_sample hv, ?_, fun h => ?_, hmid, fun h => ?_, fun h => ?_⟩
  · by_cases h : s.operating_mode = OPERATING_MODE_FINDING_MIDPOINT
    · have := hfind h; omega
    · have := hmid h; omega
  · obtain ⟨h1, h2, h4⟩ := hfind h
    refine ⟨h4, ?_, h1, ?_⟩
    · rw [toInt16_sample hv]; unfold toUInt16; omega
    · unfold toUInt8; omega
  · obtain ⟨_, h1, h2⟩ := hw h
    unfold MIDPOINT_WAIT_TIME at h2
    refine ⟨h1, ?_⟩
    unfold toUInt16; omega
  · have hm := hk h
    refine ⟨working_intermediates_range _ _ _ hv hm, ?_⟩
    rw [working_value_exact _ _ _ hv hm]
    rw [(correction_eq (x := (v : Int) - s.midpoint) (by omega) (by omega)).1]

/-- C20 on the run 512, 700 from power-on, next sample 384: the phase is WaitingMidpoint,
the midpoint variable is within 65472, and the settle timer, holding 20000, is
decremented without wrapping. -/
theorem no_wraparound_witness :
    (run (power_on 0) [512, 700]).midpoint ≤ 65472 ∧
      1 ≤ (run (power_on 0) [512, 700]).waiting_midpoint_timer ∧
      (run (power_on 0) [512, 700]).waiting_midpoint_timer = 20000 :=
  ⟨(no_wraparound 0 [512, 700] 384 (by decide) (by decide)).2.1,
    ((no_wraparound 0 [512, 700] 384 (by decide) (by decide)).2.2.2.2.1 (by decide)).1,
    by decide⟩

end DeDeadZone
